import Mathlib

/-!
# Verification of the AugmentedScraper LLM-server core

Shallow embedding of the operations in `src/llm-server/main.py` and
`src/llm-server/utils.py`: the word-based text chunker, the
chunk/embed/index ingestion pipeline (`ModelInterface.embed_text`), the
uuid-filtered retrieval step (`ModelInterface.retrieve_text`), the
conversation memory (`reset_memory`, `load_conversation_from_backend`,
`chat`), article processing (`process_article`) and the Redis consumer
loop (`redis_worker`).

External collaborators (the Ollama client, ChromaDB, Redis, the backend
HTTP API, wall-clock time) are passed in as explicit outcome parameters;
Python exceptions of a sub-operation are modelled with `Except`.
-/

namespace AugmentedScraper

/-! ## Text chunker (`utils.chunk_text`) -/

/-- Emit the word accumulated so far, if any. -/
def flushWord (acc : List Char) : List String :=
  if acc = [] then [] else [String.mk acc]

/-- Character-level worker for Python's `str.split()`: whitespace ends the
current word, anything else extends it. -/
def pyWordsAux : List Char → List Char → List String
  | [], acc => flushWord acc
  | c :: cs, acc =>
      if c.isWhitespace then flushWord acc ++ pyWordsAux cs []
      else pyWordsAux cs (acc ++ [c])

/-- Python's `str.split()` with no separator: split on runs of whitespace
and drop the empty pieces (so leading/trailing whitespace produces
nothing). -/
def pySplit (s : String) : List String :=
  pyWordsAux s.data []

/-- `word_size = len(word.split()) * 1.3` from `chunk_text`. -/
def wordSize (w : String) : ℚ :=
  ((pySplit w).length : ℚ) * (13 / 10)

/-- The size estimate of an accumulated chunk: the sum of its words'
weights (the value the running `current_size` accumulator tracks). -/
def chunkEst (c : List String) : ℚ :=
  (c.map wordSize).sum

/-- The `for word in words` loop of `chunk_text`, at the level of word
lists: `chunks` are the closed chunks so far, `current` the accumulating
chunk, `size` the running size estimate; the final flush of a non-empty
`current` is performed when the word list is exhausted. -/
def chunkLoop (maxSize : ℚ) : List String → List (List String) → List String → ℚ →
    List (List String)
  | [], chunks, current, _ =>
      if current ≠ [] then chunks ++ [current] else chunks
  | w :: ws, chunks, current, size =>
      let wsz := wordSize w
      if size + wsz > maxSize ∧ current ≠ [] then
        chunkLoop maxSize ws (chunks ++ [current]) [w] wsz
      else
        chunkLoop maxSize ws chunks (current ++ [w]) (size + wsz)

/-- The chunks of `chunk_text text maxSize`, as lists of words (before the
`" ".join(current_chunk)` at each close). -/
def chunkParts (text : String) (maxSize : ℚ) : List (List String) :=
  chunkLoop maxSize (pySplit text) [] [] 0

/-- Python's `" ".join(l)`. -/
def sjoin : List String → String
  | [] => ""
  | [a] => a
  | a :: b :: rest => a ++ " " ++ sjoin (b :: rest)

/-- `utils.chunk_text(text, max_chunk_size)`: split into words, run the
accumulating loop, and join each closed chunk's words with single
spaces. -/
def chunk_text (text : String) (maxSize : ℚ) : List String :=
  (chunkParts text maxSize).map sjoin

/-! ### Chunker lemmas -/

theorem chunkEst_nil : chunkEst [] = 0 := rfl

theorem chunkEst_concat (c : List String) (w : String) :
    chunkEst (c ++ [w]) = chunkEst c + wordSize w := by
  simp [chunkEst]

theorem chunkLoop_flatten (maxSize : ℚ) :
    ∀ (ws : List String) (chunks : List (List String)) (current : List String) (size : ℚ),
      (chunkLoop maxSize ws chunks current size).flatten = chunks.flatten ++ current ++ ws := by
  intro ws
  induction ws with
  | nil =>
      intro chunks current size
      by_cases h : current = [] <;> simp [chunkLoop, h]
  | cons w ws ih =>
      intro chunks current size
      rw [chunkLoop]
      by_cases h : size + wordSize w > maxSize ∧ current ≠ []
      · rw [if_pos h, ih]
        simp
      · rw [if_neg h, ih]
        simp

theorem chunkLoop_ne_nil (maxSize : ℚ) :
    ∀ (ws : List String) (chunks : List (List String)) (current : List String) (size : ℚ),
      (∀ c ∈ chunks, c ≠ []) →
      ∀ c ∈ chunkLoop maxSize ws chunks current size, c ≠ [] := by
  intro ws
  induction ws with
  | nil =>
      intro chunks current size hch c hc
      rw [chunkLoop] at hc
      by_cases h : current = []
      · rw [if_neg (by simp [h])] at hc
        exact hch c hc
      · rw [if_pos (by simp [h])] at hc
        rcases List.mem_append.mp hc with h1 | h2
        · exact hch c h1
        · simp at h2
          simpa [h2] using h
  | cons w ws ih =>
      intro chunks current size hch c hc
      rw [chunkLoop] at hc
      by_cases h : size + wordSize w > maxSize ∧ current ≠ []
      · rw [if_pos h] at hc
        refine ih _ _ _ ?_ c hc
        intro c' hc'
        rcases List.mem_append.mp hc' with h1 | h2
        · exact hch c' h1
        · simp at h2
          simpa [h2] using h.2
      · rw [if_neg h] at hc
        exact ih _ _ _ hch c hc

theorem sjoin_cons_cons (a b : String) (rest : List String) :
    sjoin (a :: b :: rest) = a ++ " " ++ sjoin (b :: rest) := rfl

theorem sjoin_append :
    ∀ (l1 l2 : List String), l1 ≠ [] → l2 ≠ [] →
      sjoin (l1 ++ l2) = sjoin l1 ++ " " ++ sjoin l2 := by
  intro l1
  induction l1 with
  | nil => intro l2 h _; exact absurd rfl h
  | cons a l1 ih =>
      intro l2 h1 h2
      match l1, l2 with
      | [], b :: l2 => rfl
      | a2 :: l1, l2 =>
          have ihh := ih l2 (by simp) h2
          have step : (a :: a2 :: l1) ++ l2 = a :: ((a2 :: l1) ++ l2) := rfl
          have step2 : (a2 :: l1) ++ l2 = a2 :: (l1 ++ l2) := rfl
          rw [step, step2, sjoin_cons_cons, ← step2, ihh, sjoin_cons_cons]
          simp [String.append_assoc]

theorem flatten_ne_nil_of_head (p : List String) (parts : List (List String)) (hp : p ≠ []) :
    (p :: parts).flatten ≠ [] := by
  intro h
  rw [List.flatten_cons] at h
  exact hp (List.append_eq_nil.mp h).1

theorem sjoin_map_sjoin :
    ∀ (parts : List (List String)), (∀ c ∈ parts, c ≠ []) →
      sjoin (parts.map sjoin) = sjoin parts.flatten := by
  intro parts
  induction parts with
  | nil => intro _; rfl
  | cons c parts ih =>
      intro hne
      match parts with
      | [] => simp [sjoin]
      | p :: parts' =>
          have hcne : c ≠ [] := hne c (by simp)
          have hjoin : ((p :: parts').flatten : List String) ≠ [] :=
            flatten_ne_nil_of_head p parts' (hne p (by simp))
          have hmap : ((p :: parts').map sjoin) ≠ [] := by simp
          calc sjoin ((c :: p :: parts').map sjoin)
              = sjoin ([sjoin c] ++ (p :: parts').map sjoin) := rfl
            _ = sjoin [sjoin c] ++ " " ++ sjoin ((p :: parts').map sjoin) :=
                  sjoin_append [sjoin c] _ (by simp) hmap
            _ = sjoin c ++ " " ++ sjoin ((p :: parts').flatten) := by
                  rw [ih (fun c' hc' => hne c' (by simp [hc']))]
                  rfl
            _ = sjoin (c ++ (p :: parts').flatten) := by
                  rw [sjoin_append c _ hcne hjoin]
            _ = sjoin ((c :: p :: parts').flatten) := by
                  rw [List.flatten_cons]
                  rfl

theorem chunkParts_flatten (text : String) (maxSize : ℚ) :
    (chunkParts text maxSize).flatten = pySplit text := by
  rw [chunkParts, chunkLoop_flatten]
  simp

theorem chunkParts_ne_nil (text : String) (maxSize : ℚ) :
    ∀ c ∈ chunkParts text maxSize, c ≠ [] :=
  chunkLoop_ne_nil maxSize (pySplit text) [] [] 0 (by simp)

/-- **C5.** For every input `text` and `maxSize`, joining the chunks
produced by `chunk_text text maxSize` with single spaces gives exactly the
single-space join of the whitespace-normalized word sequence of `text`
(so no word is dropped or duplicated and order is preserved — the chunks'
word lists flatten to exactly the split word list); for empty text the
chunk sequence is empty. -/
theorem chunk_text_lossless (text : String) (maxSize : ℚ) :
    sjoin (chunk_text text maxSize) = sjoin (pySplit text) ∧
    (chunkParts text maxSize).flatten = pySplit text ∧
    chunk_text "" maxSize = [] := by
  refine ⟨?_, chunkParts_flatten text maxSize, rfl⟩
  rw [chunk_text, sjoin_map_sjoin (chunkParts text maxSize) (chunkParts_ne_nil text maxSize),
    chunkParts_flatten]

theorem chunkEst_singleton (w : String) : chunkEst [w] = wordSize w := by
  simp [chunkEst]

/-- A chunk is within bound when its size estimate is at most `maxSize`,
or it is a single word whose weight alone exceeds `maxSize`. -/
def withinBound (maxSize : ℚ) (c : List String) : Prop :=
  chunkEst c ≤ maxSize ∨ ∃ w, c = [w] ∧ wordSize w > maxSize

theorem withinBound_singleton (maxSize : ℚ) (w : String) : withinBound maxSize [w] := by
  rcases le_or_lt (wordSize w) maxSize with h | h
  · exact Or.inl (by rw [chunkEst_singleton]; exact h)
  · exact Or.inr ⟨w, rfl, h⟩

theorem chunkLoop_bound (maxSize : ℚ) :
    ∀ (ws : List String) (chunks : List (List String)) (current : List String) (size : ℚ),
      size = chunkEst current →
      (∀ c ∈ chunks, withinBound maxSize c) →
      (current ≠ [] → withinBound maxSize current) →
      ∀ c ∈ chunkLoop maxSize ws chunks current size, withinBound maxSize c := by
  intro ws
  induction ws with
  | nil =>
      intro chunks current size _ hch hcur c hc
      rw [chunkLoop] at hc
      by_cases h : current = []
      · rw [if_neg (by simp [h])] at hc
        exact hch c hc
      · rw [if_pos (by simp [h])] at hc
        rcases List.mem_append.mp hc with h1 | h2
        · exact hch c h1
        · simp at h2
          exact h2 ▸ hcur h
  | cons w ws ih =>
      intro chunks current size hsize hch hcur c hc
      rw [chunkLoop] at hc
      by_cases h : size + wordSize w > maxSize ∧ current ≠ []
      · rw [if_pos h] at hc
        refine ih _ _ _ (chunkEst_singleton w).symm ?_ (fun _ => withinBound_singleton maxSize w) c hc
        intro c' hc'
        rcases List.mem_append.mp hc' with h1 | h2
        · exact hch c' h1
        · simp at h2
          exact h2 ▸ hcur h.2
      · rw [if_neg h] at hc
        refine ih _ _ _ (by rw [hsize, chunkEst_concat]) hch ?_ c hc
        intro _
        rcases not_and_or.mp h with hA | hB
        · exact Or.inl (by rw [chunkEst_concat, ← hsize]; exact not_lt.mp hA)
        · have hcurnil : current = [] := not_not.mp hB
          subst hcurnil
          exact withinBound_singleton maxSize w

/-- **C6 (amended).** Every chunk produced by `chunk_text` has size
estimate (per-word weight 1.3) at most `maxSize`, except chunks that
consist of a single word whose weight alone exceeds `maxSize`; such
over-weight singleton chunks can occur anywhere in the sequence, not
only in trailing position. -/
theorem chunk_text_size_bound (text : String) (maxSize : ℚ) :
    ∀ c ∈ chunkParts text maxSize, withinBound maxSize c := by
  intro c hc
  exact chunkLoop_bound maxSize (pySplit text) [] [] 0 (by simp [chunkEst])
    (by simp) (by simp) c hc

/-- **C6 counterexample.** For `chunk_text "a b" 1` the produced chunks
are `["a"]` and `["b"]`: the first chunk is not the trailing one, yet its
size estimate `13/10` exceeds `maxSize = 1` (and so does the second's),
refuting "at most a single trailing over-size word". -/
theorem chunk_text_size_counterexample :
    chunkParts "a b" 1 = [["a"], ["b"]] ∧
    (chunkParts "a b" 1).dropLast = [["a"]] ∧
    chunkEst ["a"] > 1 ∧ chunkEst ["b"] > 1 := by
  have h : chunkParts "a b" 1 = [["a"], ["b"]] := by
    simp +decide only [chunkParts, chunkLoop, pySplit, pyWordsAux, flushWord, wordSize]
    norm_num
  have ha : pySplit "a" = ["a"] := rfl
  have hb : pySplit "b" = ["b"] := rfl
  refine ⟨h, by rw [h]; rfl, ?_, ?_⟩
  · rw [chunkEst_singleton]; norm_num [wordSize, ha]
  · rw [chunkEst_singleton]; norm_num [wordSize, hb]

/-- Witness for the amended C6 bound at a concrete input: `"aa bb"` with
`maxSize = 1500` produces the single chunk `["aa", "bb"]`, which is within
bound. -/
theorem chunk_text_size_bound_witness :
    ["aa", "bb"] ∈ chunkParts "aa bb" 1500 ∧ withinBound 1500 ["aa", "bb"] := by
  have h : chunkParts "aa bb" 1500 = [["aa", "bb"]] := by
    simp +decide only [chunkParts, chunkLoop, pySplit, pyWordsAux, flushWord, wordSize]
    norm_num
  have hmem : ["aa", "bb"] ∈ chunkParts "aa bb" 1500 := by rw [h]; simp
  exact ⟨hmem, chunk_text_size_bound "aa bb" 1500 ["aa", "bb"] hmem⟩

/-! ## Ingestion pipeline (`ModelInterface.embed_text`) -/

/-- A possibly nested numeric value, as the embedding provider may return
a flat vector, a batch-of-one vector, or deeper nesting. -/
inductive Nest where
  | num (x : Int)
  | list (xs : List Nest)

/-- `while isinstance(embeddings[0], list): embeddings = embeddings[0]`
(guarded by the list being non-empty): recursively unwrap a leading
nested list until the first element is not a list. -/
def pyFlatten : List Nest → List Nest
  | [] => []
  | Nest.num x :: rest => Nest.num x :: rest
  | Nest.list xs :: _ => pyFlatten xs

/-- Python truthiness of `not s or not s.strip()`: the string is empty or
all-whitespace. -/
def isBlank (s : String) : Bool :=
  s.data.all Char.isWhitespace

/-- Outcome of one `client.embed` call: the call raised, the response was
falsy / had no `"embeddings"` key, or it returned a nested vector. -/
inductive EmbedResp where
  | exc
  | missing
  | ok (embeddings : List Nest)

/-- The metadata dict stored per chunk. -/
structure ChunkMeta where
  uuid : String
  chunk_index : ℕ
  total_chunks : ℕ

/-- The four parallel arrays accumulated for a ChromaDB write. -/
structure Batch where
  ids : List String
  embeddings : List (List Nest)
  documents : List String
  metadatas : List ChunkMeta

/-- `f"{uuid}_chunk_{i}"`. -/
def chunkId (uuid : String) (i : ℕ) : String :=
  uuid ++ "_chunk_" ++ toString i

/-- One iteration of the per-chunk loop in `embed_text`: skip blank
chunks, skip chunks shorter than 10 characters, skip chunks whose embed
call raised or returned a malformed/empty response, and otherwise append
the chunk to all four arrays and bump `successful_chunks`. -/
def ingestStep (uuid : String) (total : ℕ) (embed : ℕ → EmbedResp)
    (acc : Batch × ℕ) (ic : ℕ × String) : Batch × ℕ :=
  let b := acc.1
  if isBlank ic.2 then acc
  else if ic.2.length < 10 then acc
  else
    match embed ic.1 with
    | EmbedResp.exc => acc
    | EmbedResp.missing => acc
    | EmbedResp.ok embs =>
        let flat := pyFlatten embs
        if flat.isEmpty then acc
        else
          (⟨b.ids ++ [chunkId uuid ic.1],
            b.embeddings ++ [flat],
            b.documents ++ [ic.2],
            b.metadatas ++ [⟨uuid, ic.1, total⟩]⟩, acc.2 + 1)

/-- The accumulated arrays and `successful_chunks` counter after the
per-chunk loop of `embed_text` over the chunks of `text`. -/
def embedAccum (uuid : String) (chunks : List String) (embed : ℕ → EmbedResp) :
    Batch × ℕ :=
  chunks.enum.foldl (ingestStep uuid chunks.length embed) (⟨[], [], [], []⟩, 0)

/-- The equal-length validation before the ChromaDB write (`true` when the
arrays are mismatched and the whole batch must be rejected). -/
def lengthsMismatch (b : Batch) : Bool :=
  (b.embeddings.length != b.documents.length) ||
  (b.documents.length != b.metadatas.length) ||
  (b.metadatas.length != b.ids.length)

/-- The tail of `embed_text` after the per-chunk loop: reject the whole
batch on a length mismatch, write the batch in a single `collection.add`
call when at least one chunk succeeded, and otherwise write nothing. -/
def chromaWrite (acc : Batch × ℕ) : Option Batch :=
  if lengthsMismatch acc.1 then none
  else if ¬acc.1.embeddings.isEmpty ∧ acc.2 > 0 then some acc.1
  else none

/-- `ModelInterface.embed_text(text, uuid)` with the embed calls given as
an outcome oracle: `some b` means a single `collection.add` call with the
batch `b` is made, `none` means nothing is written to the vector index. -/
def embed_text (text uuid : String) (embed : ℕ → EmbedResp) : Option Batch :=
  if isBlank text then none
  else if uuid = "" then none
  else
    let chunks := chunk_text text 1500
    if chunks = [] then none
    else chromaWrite (embedAccum uuid chunks embed)

/-- **C2.** For every text, uuid and pattern of per-chunk embedding
outcomes, `embed_text` either performs a single batch write whose four
parallel arrays (ids, embeddings, documents, metadatas) all have equal
length, or writes nothing; and whenever the equal-length check fails on
the accumulated arrays, nothing is written. -/
theorem embed_text_batch_invariant (text uuid : String) (embed : ℕ → EmbedResp) :
    (∀ b, embed_text text uuid embed = some b →
        b.ids.length = b.embeddings.length ∧
        b.embeddings.length = b.documents.length ∧
        b.documents.length = b.metadatas.length) ∧
    (∀ acc : Batch × ℕ, lengthsMismatch acc.1 = true → chromaWrite acc = none) := by
  constructor
  · intro b hb
    rw [embed_text] at hb
    by_cases h1 : isBlank text
    · rw [if_pos h1] at hb; exact absurd hb (by simp)
    rw [if_neg h1] at hb
    by_cases h2 : uuid = ""
    · rw [if_pos h2] at hb; exact absurd hb (by simp)
    rw [if_neg h2] at hb
    by_cases h3 : chunk_text text 1500 = []
    · rw [if_pos h3] at hb; exact absurd hb (by simp)
    rw [if_neg h3] at hb
    rw [chromaWrite] at hb
    by_cases h4 : lengthsMismatch (embedAccum uuid (chunk_text text 1500) embed).1
    · rw [if_pos h4] at hb; exact absurd hb (by simp)
    rw [if_neg h4] at hb
    by_cases h5 : ¬(embedAccum uuid (chunk_text text 1500) embed).1.embeddings.isEmpty ∧
        (embedAccum uuid (chunk_text text 1500) embed).2 > 0
    · rw [if_pos h5] at hb
      have hbEq : (embedAccum uuid (chunk_text text 1500) embed).1 = b :=
        Option.some.inj hb
      rw [lengthsMismatch] at h4
      simp only [Bool.or_eq_true, bne_iff_ne, not_or] at h4
      push_neg at h4
      rw [hbEq] at h4
      obtain ⟨⟨hA, hB⟩, hC⟩ := h4
      exact ⟨by rw [← hC, ← hB, ← hA], hA, hB⟩
    · rw [if_neg h5] at hb; exact absurd hb (by simp)
  · intro acc hmis
    rw [chromaWrite, if_pos hmis]

/-- Witness for C2 at concrete inputs: a one-chunk text whose embed call
succeeds produces a single equal-length batch write, and a forced
mismatched accumulator is rejected with no write. -/
theorem embed_text_batch_invariant_witness :
    (embed_text "abcdefghij klmno" "t1" (fun _ => EmbedResp.ok [Nest.num 1]) =
        some (Batch.mk ["t1_chunk_0"] [[Nest.num 1]] ["abcdefghij klmno"]
          [ChunkMeta.mk "t1" 0 1]) ∧
      (Batch.mk ["t1_chunk_0"] [[Nest.num 1]] ["abcdefghij klmno"]
          [ChunkMeta.mk "t1" 0 1]).ids.length =
        (Batch.mk ["t1_chunk_0"] [[Nest.num 1]] ["abcdefghij klmno"]
          [ChunkMeta.mk "t1" 0 1]).embeddings.length) ∧
    (lengthsMismatch (Batch.mk [] [[Nest.num 1]] [] []) = true ∧
      chromaWrite (Batch.mk [] [[Nest.num 1]] [] [], 1) = none) := by
  have hchunks : chunk_text "abcdefghij klmno" 1500 = ["abcdefghij klmno"] := by
    simp +decide only [chunk_text, chunkParts, chunkLoop, pySplit, pyWordsAux, flushWord,
      wordSize, sjoin]
    norm_num
    decide
  have hb : embed_text "abcdefghij klmno" "t1" (fun _ => EmbedResp.ok [Nest.num 1]) =
      some (Batch.mk ["t1_chunk_0"] [[Nest.num 1]] ["abcdefghij klmno"]
        [ChunkMeta.mk "t1" 0 1]) := by
    rw [embed_text]
    simp +decide only [hchunks, isBlank, embedAccum, ingestStep, pyFlatten, chunkId,
      chromaWrite, lengthsMismatch, List.enum, List.enumFrom, List.foldl, List.isEmpty,
      String.length, List.length, Option.some.injEq, Batch.mk.injEq, ChunkMeta.mk.injEq,
      if_true, if_false, List.nil_append, Nat.zero_add]
  have hmis : lengthsMismatch (Batch.mk [] [[Nest.num 1]] [] []) = true := rfl
  exact ⟨⟨hb, ((embed_text_batch_invariant "abcdefghij klmno" "t1"
      (fun _ => EmbedResp.ok [Nest.num 1])).1 _ hb).1⟩,
    hmis, (embed_text_batch_invariant "abcdefghij klmno" "t1"
      (fun _ => EmbedResp.ok [Nest.num 1])).2 (Batch.mk [] [[Nest.num 1]] [] [], 1) hmis⟩

/-! ## Retrieval step (`ModelInterface.retrieve_text`) -/

/-- The metadata dict attached to one returned hit; the field models
`metadata.get("uuid")` (`none` when the key is absent). -/
structure HitMeta where
  uuid : Option String

/-- The shape of `collection.query`'s result used by `retrieve_text`:
`documents` is a list of rows (one per query embedding), `metadatas`
likewise, `none` modelling an absent `"metadatas"` key (the code falls
back to `[[]]` via `.get`); a `none` entry inside a row models a falsy
metadata. -/
structure QueryResults where
  documents : List (List String)
  metadatas : Option (List (List (Option HitMeta)))

/-- `metadata and metadata.get("uuid") == str(uuid)`. -/
def metaMatches (uuid : String) : Option HitMeta → Bool
  | some m => m.uuid == some uuid
  | none => false

/-- `ModelInterface.retrieve_text(uuid, prompt)` with the embed call given
as an `EmbedResp` outcome and the ChromaDB query as an oracle over the
flattened embedding. Every failure path is caught in the source and
yields the empty string, so the model is a total function into `String`. -/
def retrieve_text (uuid prompt : String) (e : EmbedResp)
    (query : List Nest → Except Unit QueryResults) : String :=
  if uuid = "" then ""
  else if isBlank prompt then ""
  else
    match e with
    | EmbedResp.exc => ""
    | EmbedResp.missing => ""
    | EmbedResp.ok embs =>
        let flat := pyFlatten embs
        match query flat with
        | Except.error _ => ""
        | Except.ok results =>
            match results.documents with
            | [] => ""
            | docs0 :: _ =>
                if docs0.length > 0 then
                  match results.metadatas.getD [[]] with
                  | [] => ""
                  | metas0 :: _ =>
                      let filtered := metas0.enum.filterMap (fun im =>
                        if metaMatches uuid im.2 then docs0.get? im.1 else none)
                      let relevant := filtered.take 3
                      if ¬relevant.isEmpty then sjoin relevant else ""
                else ""

/-- The spec's description of the kept hits: pair each returned document
with its metadata in index order, keep the hits whose metadata task id
equals the requesting one, take the first 3 in that (similarity-rank)
order, and return their document texts. -/
def specTopChunks (uuid : String) (docs : List String)
    (metas : List (Option HitMeta)) : List String :=
  (((docs.zip metas).filter (fun dm => metaMatches uuid dm.2)).map Prod.fst).take 3

theorem filterMap_enumFrom_shift (p : Option HitMeta → Bool) (d : String) :
    ∀ (metas : List (Option HitMeta)) (docs : List String) (n : ℕ),
      (List.enumFrom (n + 1) metas).filterMap
          (fun im => if p im.2 then (d :: docs).get? im.1 else none) =
        (List.enumFrom n metas).filterMap
          (fun im => if p im.2 then docs.get? im.1 else none) := by
  intro metas
  induction metas with
  | nil => intro docs n; rfl
  | cons m ms ih =>
      intro docs n
      rw [List.enumFrom_cons, List.enumFrom_cons, List.filterMap_cons, List.filterMap_cons]
      have hget : (d :: docs).get? (n + 1) = docs.get? n := List.get?_cons_succ
      rw [hget, ih docs (n + 1)]

theorem filterMap_enum_eq_zip_filter (p : Option HitMeta → Bool) :
    ∀ (metas : List (Option HitMeta)) (docs : List String),
      metas.enum.filterMap (fun im => if p im.2 then docs.get? im.1 else none) =
        ((docs.zip metas).filter (fun dm => p dm.2)).map Prod.fst := by
  intro metas
  induction metas with
  | nil => intro docs; cases docs <;> rfl
  | cons m ms ih =>
      intro docs
      match docs with
      | [] =>
          rw [List.zip_nil_left]
          rw [List.filterMap_eq_nil_iff.mpr]
          · rfl
          · intro a _
            have : ([] : List String).get? a.1 = none := rfl
            by_cases hp : p a.2 <;> simp [hp, this]
      | d :: ds =>
          rw [List.enum_eq_enumFrom, List.enumFrom_cons, List.filterMap_cons]
          have hshift := filterMap_enumFrom_shift p d ms ds 0
          have htail : (List.enumFrom 0 ms).filterMap
              (fun im => if p im.2 then ds.get? im.1 else none) =
              ((ds.zip ms).filter (fun dm => p dm.2)).map Prod.fst := by
            rw [← List.enum_eq_enumFrom]; exact ih ds
          rw [List.zip_cons_cons, List.filter_cons]
          by_cases hp : p m
          · simp only [hp, if_pos, List.map_cons]
            rw [hshift, htail]
            rfl
          · simp only [hp]
            rw [if_neg (by simp [hp])]
            simp only [List.get?_cons_zero]
            rw [hshift, htail]
            simp

/-- **C7.** For every uuid that no returned hit's metadata matches (for
any query outcome the index can produce), `retrieve_text` returns the
empty string; the model is a total function, reflecting that the source
catches every failure path and returns `""` rather than raising. -/
theorem retrieve_text_no_chunks (uuid prompt : String) (e : EmbedResp)
    (query : List Nest → Except Unit QueryResults)
    (h : ∀ flat results, query flat = Except.ok results →
        ∀ row ∈ results.metadatas.getD [[]], ∀ om ∈ row, metaMatches uuid om = false) :
    retrieve_text uuid prompt e query = "" := by
  rw [retrieve_text.eq_def]
  by_cases hu : uuid = ""
  · rw [if_pos hu]
  rw [if_neg hu]
  by_cases hp : isBlank prompt
  · rw [if_pos hp]
  rw [if_neg hp]
  match e with
  | EmbedResp.exc => rfl
  | EmbedResp.missing => rfl
  | EmbedResp.ok embs =>
      simp only
      match hq : query (pyFlatten embs) with
      | Except.error _ => rfl
      | Except.ok results =>
          simp only
          match hd : results.documents with
          | [] => rfl
          | docs0 :: drest =>
              simp only
              by_cases hlen : docs0.length > 0
              · rw [if_pos hlen]
                match hm : results.metadatas.getD [[]] with
                | [] => rfl
                | metas0 :: mrest =>
                    simp only
                    have hfil : metas0.enum.filterMap (fun im =>
                        if metaMatches uuid im.2 then docs0.get? im.1 else none) = [] := by
                      rw [List.filterMap_eq_nil_iff]
                      intro im him
                      have hmem : im.2 ∈ metas0 := List.snd_mem_of_mem_enum him
                      have hrow : metas0 ∈ results.metadatas.getD [[]] := by
                        rw [hm]; exact List.mem_cons_self _ _
                      rw [h (pyFlatten embs) results hq metas0 hrow im.2 hmem]
                      rfl
                    rw [hfil]
                    rfl
              · rw [if_neg hlen]

/-- **C8.** Whenever the query succeeds and returns hit rows, the result
of `retrieve_text` is exactly: keep the hits (document paired with its
metadata, in the index's similarity order) whose metadata task id equals
the requesting uuid, take the first 3 of them, and join their document
texts with single spaces. -/
theorem retrieve_text_keeps_top3 (uuid prompt : String) (embs : List Nest)
    (query : List Nest → Except Unit QueryResults) (results : QueryResults)
    (docs0 : List String) (drest : List (List String))
    (metas0 : List (Option HitMeta)) (mrest : List (List (Option HitMeta)))
    (hu : uuid ≠ "") (hp : isBlank prompt = false)
    (hq : query (pyFlatten embs) = Except.ok results)
    (hd : results.documents = docs0 :: drest) (hd0 : docs0 ≠ [])
    (hm : results.metadatas.getD [[]] = metas0 :: mrest) :
    retrieve_text uuid prompt (EmbedResp.ok embs) query =
      sjoin (specTopChunks uuid docs0 metas0) := by
  rw [retrieve_text.eq_def, if_neg hu, if_neg (by simp [hp])]
  simp only [hq, hd, hm]
  rw [if_pos (List.length_pos.mpr hd0)]
  simp only [filterMap_enum_eq_zip_filter (metaMatches uuid) metas0 docs0]
  have hspec : specTopChunks uuid docs0 metas0 =
      (((docs0.zip metas0).filter (fun dm => metaMatches uuid dm.2)).map Prod.fst).take 3 := rfl
  by_cases hrel : ((((docs0.zip metas0).filter
      (fun dm => metaMatches uuid dm.2)).map Prod.fst).take 3).isEmpty
  · rw [if_neg (by simp [hrel]), hspec]
    have : (((docs0.zip metas0).filter
        (fun dm => metaMatches uuid dm.2)).map Prod.fst).take 3 = [] :=
      List.isEmpty_iff.mp hrel
    rw [this]
    rfl
  · rw [if_pos (by simp [hrel]), hspec]

/-- Witness for C7: a concrete query whose single hit belongs to a
different uuid yields empty context. -/
theorem retrieve_text_no_chunks_witness :
    retrieve_text "t9" "hi" (EmbedResp.ok [Nest.num 1])
      (fun _ => Except.ok (QueryResults.mk [["docA"]]
        (some [[some (HitMeta.mk (some "other"))]]))) = "" := by
  apply retrieve_text_no_chunks
  intro flat results hres row hrow om hom
  have hr : results = QueryResults.mk [["docA"]] (some [[some (HitMeta.mk (some "other"))]]) :=
    (Except.ok.inj hres).symm
  subst hr
  simp only [Option.getD_some] at hrow
  simp at hrow
  subst hrow
  simp at hom
  subst hom
  rfl

/-- Witness for C8: five hits for two uuids; the matching ones are kept in
index order and only the first three survive, joined with single
spaces. -/
theorem retrieve_text_keeps_top3_witness :
    retrieve_text "t1" "hey" (EmbedResp.ok [Nest.num 1])
      (fun _ => Except.ok (QueryResults.mk
        [["d0", "d1", "d2", "d3", "d4"]]
        (some [[some (HitMeta.mk (some "t1")), some (HitMeta.mk (some "zz")),
                some (HitMeta.mk (some "t1")), some (HitMeta.mk (some "t1")),
                some (HitMeta.mk (some "t1"))]]))) =
      sjoin (specTopChunks "t1" ["d0", "d1", "d2", "d3", "d4"]
        [some (HitMeta.mk (some "t1")), some (HitMeta.mk (some "zz")),
         some (HitMeta.mk (some "t1")), some (HitMeta.mk (some "t1")),
         some (HitMeta.mk (some "t1"))]) ∧
    sjoin (specTopChunks "t1" ["d0", "d1", "d2", "d3", "d4"]
        [some (HitMeta.mk (some "t1")), some (HitMeta.mk (some "zz")),
         some (HitMeta.mk (some "t1")), some (HitMeta.mk (some "t1")),
         some (HitMeta.mk (some "t1"))]) = "d0 d2 d3" := by
  constructor
  · exact retrieve_text_keeps_top3 "t1" "hey" [Nest.num 1] _ _
      ["d0", "d1", "d2", "d3", "d4"] []
      [some (HitMeta.mk (some "t1")), some (HitMeta.mk (some "zz")),
       some (HitMeta.mk (some "t1")), some (HitMeta.mk (some "t1")),
       some (HitMeta.mk (some "t1"))] []
      (by decide) rfl rfl rfl (by decide) rfl
  · rfl

/-! ## Conversation memory (`reset_memory`, `load_conversation_from_backend`, `chat`) -/

/-- One `{role, content}` message of the in-process conversation memory. -/
structure Turn where
  role : String
  content : String

/-- The fixed system turn installed by `__init__` and `reset_memory`. -/
def systemTurn : Turn :=
  Turn.mk "system"
    "You are a helpful assistant that can answer questions and help with tasks."

/-- `ModelInterface.reset_memory`: the memory becomes exactly the system
turn (this is also the memory `__init__` starts with). -/
def reset_memory : List Turn := [systemTurn]

/-- One entry of a persisted conversation as returned by the backend,
with optional fields (the code reads them with `.get(..., default)`). -/
structure BackendEntry where
  role : Option String
  content : Option String

/-- `{"role": entry.get("role", "user"), "content": entry.get("content", "")}`. -/
def entryToTurn (e : BackendEntry) : Turn :=
  Turn.mk (e.role.getD "user") (e.content.getD "")

/-- One task record of the backend `/tasks` response. -/
structure BackendTask where
  uuid : Option String
  conversation : Option (List BackendEntry)

/-- The `for task in tasks_data.get("tasks", [])` scan: the first task
whose `uuid` equals the requested one (the loop breaks at the first
match). -/
def findTask (uuid : String) : List BackendTask → Option BackendTask
  | [] => none
  | t :: ts => if t.uuid == some uuid then some t else findTask uuid ts

/-- `ModelInterface.load_conversation_from_backend(uuid)`: on any request
failure or non-200 response (`Except.error`), or when no matching task or
no non-empty persisted conversation exists, the memory is left unchanged
and `false` is returned; otherwise the memory is reset and the persisted
entries are appended after the system turn, returning `true`. -/
def load_conversation_from_backend (mem : List Turn) (uuid : String)
    (resp : Except Unit (List BackendTask)) : List Turn × Bool :=
  match resp with
  | Except.error _ => (mem, false)
  | Except.ok tasks =>
      match findTask uuid tasks with
      | none => (mem, false)
      | some t =>
          match t.conversation with
          | some entries =>
              if ¬entries.isEmpty then
                (reset_memory ++ entries.map entryToTurn, true)
              else (mem, false)
          | none => (mem, false)

/-- The prompt `chat` sends: when a uuid is given and retrieval produced
non-empty context, wrap the context and question in the instruction line,
otherwise use the raw message. -/
def chatPrompt (text : String) (uuid : Option String) (e : EmbedResp)
    (query : List Nest → Except Unit QueryResults) : String :=
  let context := match uuid with
    | some u => retrieve_text u text e query
    | none => ""
  if context ≠ "" then
    "Use this context from the article: " ++ context ++
      "\n\n to answer the following question: " ++ text
  else text

/-- `ModelInterface.chat(text, uuid)`: append the (possibly
context-enhanced) user turn, invoke the model over the entire memory
sequence, and on success append the assistant turn and return the answer;
the model call is not wrapped in any handler, so its error is returned to
the caller with the memory as mutated so far (user turn appended, no
assistant turn). The best-effort transcript persistence that follows a
successful call does not touch the memory or the answer. -/
def chat (mem : List Turn) (text : String) (uuid : Option String)
    (e : EmbedResp) (query : List Nest → Except Unit QueryResults)
    (model : List Turn → Except Unit String) : List Turn × Except Unit String :=
  let mem1 := mem ++ [Turn.mk "user" (chatPrompt text uuid e query)]
  match model mem1 with
  | Except.error err => (mem1, Except.error err)
  | Except.ok ans => (mem1 ++ [Turn.mk "assistant" ans], Except.ok ans)

/-- **C3.** The memory always has the fixed system turn at position 0:
`reset_memory` establishes it, and `load_conversation_from_backend`
(found or not) and `chat` (model call succeeding or failing) preserve
it. -/
theorem memory_head_system :
    reset_memory.head? = some systemTurn ∧
    (∀ (mem : List Turn) (uuid : String) (resp : Except Unit (List BackendTask)),
      mem.head? = some systemTurn →
      ((load_conversation_from_backend mem uuid resp).1).head? = some systemTurn) ∧
    (∀ (mem : List Turn) (text : String) (uuid : Option String) (e : EmbedResp)
        (query : List Nest → Except Unit QueryResults)
        (model : List Turn → Except Unit String),
      mem.head? = some systemTurn →
      ((chat mem text uuid e query model).1).head? = some systemTurn) := by
  refine ⟨rfl, ?_, ?_⟩
  · intro mem uuid resp hmem
    rw [load_conversation_from_backend.eq_def]
    match resp with
    | Except.error _ => exact hmem
    | Except.ok tasks =>
        simp only
        match findTask uuid tasks with
        | none => exact hmem
        | some t =>
            simp only
            match t.conversation with
            | some entries =>
                simp only
                by_cases he : entries.isEmpty
                · rw [if_neg (by simp [he])]
                  exact hmem
                · rw [if_pos (by simp [he])]
                  rfl
            | none => exact hmem
  · intro mem text uuid e query model hmem
    have hne : mem ≠ [] := by
      intro h
      rw [h] at hmem
      exact absurd hmem (by simp)
    rw [chat]
    match model (mem ++ [Turn.mk "user" (chatPrompt text uuid e query)]) with
    | Except.error err =>
        simp only
        rw [List.head?_append_of_ne_nil _ hne]
        exact hmem
    | Except.ok ans =>
        simp only
        rw [List.append_assoc, List.head?_append_of_ne_nil _ hne]
        exact hmem

/-- Witness for C3: rehydrating a found one-entry transcript and a chat
whose model call fails both keep the system turn at position 0, starting
from a freshly reset memory. -/
theorem memory_head_system_witness :
    ((load_conversation_from_backend reset_memory "t1"
        (Except.ok [BackendTask.mk (some "t1")
          (some [BackendEntry.mk (some "user") (some "hi")])])).1).head? =
      some systemTurn ∧
    ((chat reset_memory "hello" none EmbedResp.exc (fun _ => Except.error ())
        (fun _ => Except.error ())).1).head? = some systemTurn :=
  ⟨memory_head_system.2.1 reset_memory "t1"
      (Except.ok [BackendTask.mk (some "t1")
        (some [BackendEntry.mk (some "user") (some "hi")])]) rfl,
    memory_head_system.2.2 reset_memory "hello" none EmbedResp.exc
      (fun _ => Except.error ()) (fun _ => Except.error ()) rfl⟩

/-- **C9.** If the model invocation over the full memory sequence fails,
`chat` returns that error to its caller: no answer is produced and the
returned memory is the input memory with only the user turn appended (no
assistant turn). -/
theorem chat_model_error_propagates (mem : List Turn) (text : String)
    (uuid : Option String) (e : EmbedResp)
    (query : List Nest → Except Unit QueryResults)
    (model : List Turn → Except Unit String) (err : Unit)
    (h : model (mem ++ [Turn.mk "user" (chatPrompt text uuid e query)]) =
      Except.error err) :
    chat mem text uuid e query model =
      (mem ++ [Turn.mk "user" (chatPrompt text uuid e query)], Except.error err) := by
  rw [chat]
  rw [h]

/-- Witness for C9: with an always-failing model, the chat on a fresh
memory returns the error and appends only the user turn. -/
theorem chat_model_error_propagates_witness :
    chat reset_memory "hi" none EmbedResp.exc (fun _ => Except.error ())
        (fun _ => Except.error ()) =
      (reset_memory ++ [Turn.mk "user" (chatPrompt "hi" none EmbedResp.exc
        (fun _ => Except.error ()))], Except.error ()) :=
  chat_model_error_propagates reset_memory "hi" none EmbedResp.exc
    (fun _ => Except.error ()) (fun _ => Except.error ()) () rfl

/-! ## Article processing (`ModelInterface.process_article`) -/

/-- The `{summary, sentiment}` dict returned by `process_article`. -/
structure ArticleResult where
  summary : String
  sentiment : String

/-- The fallback dict built in `process_article`'s outer `except` branch. -/
def defaultArticleResult : ArticleResult :=
  ArticleResult.mk "Error processing article" "neutral"

/-- `ModelInterface.process_article(article_text, uuid)`: the embedding
step is attempted with its failure swallowed (so its outcome parameter
does not influence the result); then the summary model call runs over the
article text and the sentiment model call over the summary. The outer
`except Exception` catches any error from the two `generate_text` calls
and returns the default result instead of re-raising, so the
`Except`-valued result is `Except.ok` on every path. -/
def process_article (_embedOutcome : Option Batch)
    (genSummary : Except Unit String)
    (genSentiment : String → Except Unit String) : Except Unit ArticleResult :=
  match genSummary with
  | Except.error _ => Except.ok defaultArticleResult
  | Except.ok summary =>
      match genSentiment summary with
      | Except.error _ => Except.ok defaultArticleResult
      | Except.ok sentiment => Except.ok (ArticleResult.mk summary sentiment)

/-- **C1 counterexample.** With the summary model call raising,
`process_article` does not fail: it returns `Except.ok` with the
substituted default summary and sentiment, contradicting the claim that
the error propagates with no default substituted. -/
theorem process_article_counterexample :
    process_article none (Except.error ()) (fun _ => Except.error ()) =
      Except.ok (ArticleResult.mk "Error processing article" "neutral") := rfl

/-- **C1 (amended).** If either model call inside `process_article`
raises, the outer handler catches it and the operation still succeeds,
returning the default result `{summary: "Error processing article",
sentiment: "neutral"}`; on every path the result is `Except.ok` (no error
ever reaches the caller). -/
theorem process_article_catches_model_errors (embedOutcome : Option Batch)
    (genSummary : Except Unit String)
    (genSentiment : String → Except Unit String) :
    (genSummary = Except.error () →
      process_article embedOutcome genSummary genSentiment =
        Except.ok defaultArticleResult) ∧
    (∀ s, genSummary = Except.ok s → genSentiment s = Except.error () →
      process_article embedOutcome genSummary genSentiment =
        Except.ok defaultArticleResult) ∧
    (∃ r, process_article embedOutcome genSummary genSentiment = Except.ok r) := by
  refine ⟨?_, ?_, ?_⟩
  · intro h
    rw [process_article.eq_def, h]
  · intro s hs hsent
    rw [process_article.eq_def, hs]
    simp only
    rw [hsent]
  · rw [process_article.eq_def]
    match genSummary with
    | Except.error _ => exact ⟨defaultArticleResult, rfl⟩
    | Except.ok s =>
        simp only
        match genSentiment s with
        | Except.error _ => exact ⟨defaultArticleResult, rfl⟩
        | Except.ok sent => exact ⟨ArticleResult.mk s sent, rfl⟩

/-- Witness for amended C1: both failure positions at concrete inputs
yield the default result via the theorem. -/
theorem process_article_catches_model_errors_witness :
    process_article none (Except.error ()) (fun _ => Except.ok "pos") =
      Except.ok defaultArticleResult ∧
    process_article none (Except.ok "sum") (fun _ => Except.error ()) =
      Except.ok defaultArticleResult :=
  ⟨(process_article_catches_model_errors none (Except.error ())
      (fun _ => Except.ok "pos")).1 rfl,
    (process_article_catches_model_errors none (Except.ok "sum")
      (fun _ => Except.error ())).2.1 "sum" rfl rfl⟩

/-! ## Task consumer (`redis_worker`) -/

/-- The result dict cached under `cache:{url}`. -/
structure CacheEntry where
  url : String
  summary : String
  sentiment : String
  conversation : List Turn
  processed_at : ℕ

/-- The value stored under `url_task:{url}`. -/
structure UrlTask where
  uuid : String
  status : String

/-- A message published on the `process:results` channel. -/
structure PubMsg where
  uuid : String
  url : String
  result : CacheEntry

/-- The observable Redis state the worker mutates: `status:{uuid}` keys,
`url_task:{url}` keys, `cache:{url}` keys and the published messages. -/
structure RedisState where
  statuses : String → Option String
  urlTasks : String → Option UrlTask
  cache : String → Option CacheEntry
  published : List PubMsg

def RedisState.setStatus (rs : RedisState) (uuid status : String) : RedisState :=
  { rs with statuses := fun k => if k = uuid then some status else rs.statuses k }

def RedisState.setUrlTask (rs : RedisState) (url : String) (ut : UrlTask) : RedisState :=
  { rs with urlTasks := fun k => if k = url then some ut else rs.urlTasks k }

def RedisState.setCache (rs : RedisState) (url : String) (entry : CacheEntry) : RedisState :=
  { rs with cache := fun k => if k = url then some entry else rs.cache k }

def RedisState.publish (rs : RedisState) (msg : PubMsg) : RedisState :=
  { rs with published := rs.published ++ [msg] }

/-- The loop-local variables that survive across iterations of the
`while True` loop: the handler checks them with `"url" in locals()` /
`"task_uuid" in locals()`, so a previous iteration's bindings are still
visible when a later iteration fails before rebinding them. -/
structure WorkerLocals where
  url : Option String
  task_uuid : Option String

/-- A dequeued queue item: `malformed` models a payload on which
`json.loads(raw_data)` or the key accesses raise before `url` and
`task_uuid` are (re)bound; `wellFormed` carries the decoded fields. -/
inductive RawPayload where
  | malformed
  | wellFormed (url uuid : String)

/-- The `except` handler of the worker loop: if `task_uuid` is bound,
write status `failed` under that (possibly stale) uuid and, if `url` is
also bound, re-read the url-task mapping and best-effort mirror `failed`
into it; if `task_uuid` was never bound, write nothing. -/
def handleError (l : WorkerLocals) (rs : RedisState) : RedisState :=
  match l.task_uuid with
  | none => rs
  | some tu =>
      let rs1 := rs.setStatus tu "failed"
      match l.url with
      | none => rs1
      | some u =>
          match rs1.urlTasks u with
          | some ut => rs1.setUrlTask u (UrlTask.mk ut.uuid "failed")
          | none => rs1

/-- The `try` body for one dequeued item: bind the locals, mark the task
`processing`, best-effort mirror into the url-task mapping (re-using the
value read before the mirror for the later `done` mirror, as the source
does), scrape, process the article (`proc` models `LLM.process_article`,
which never raises), cache the result, mark `done`, mirror `done`, and
publish. `Except.error` carries the locals and store as already mutated
when an exception is raised (malformed payload, or the scrape failing);
`now` is the `time.time()` reading. -/
def workerTry (l : WorkerLocals) (rs : RedisState) (p : RawPayload)
    (scrape : String → Except Unit String)
    (proc : String → ArticleResult) (now : ℕ) :
    Except (WorkerLocals × RedisState) (WorkerLocals × RedisState) :=
  match p with
  | RawPayload.malformed => Except.error (l, rs)
  | RawPayload.wellFormed url uuid =>
      let l1 := WorkerLocals.mk (some url) (some uuid)
      let rs1 := rs.setStatus uuid "processing"
      let origUt := rs1.urlTasks url
      let rs2 := match origUt with
        | some ut => rs1.setUrlTask url (UrlTask.mk ut.uuid "processing")
        | none => rs1
      match scrape url with
      | Except.error _ => Except.error (l1, rs2)
      | Except.ok text =>
          let res := proc text
          let entry := CacheEntry.mk url res.summary res.sentiment [] now
          let rs3 := rs2.setCache url entry
          let rs4 := rs3.setStatus uuid "done"
          let rs5 := match origUt with
            | some ut => rs4.setUrlTask url (UrlTask.mk ut.uuid "done")
            | none => rs4
          Except.ok (l1, rs5.publish (PubMsg.mk uuid url entry))

/-- One iteration of the worker loop: a dequeue timeout leaves everything
unchanged, otherwise the body runs and any exception is absorbed by the
handler (followed by the fixed one-second backoff sleep); the iteration
always returns a next state instead of propagating the exception. -/
def workerStep (l : WorkerLocals) (rs : RedisState) (deq : Option RawPayload)
    (scrape : String → Except Unit String)
    (proc : String → ArticleResult) (now : ℕ) : WorkerLocals × RedisState :=
  match deq with
  | none => (l, rs)
  | some p =>
      match workerTry l rs p scrape proc now with
      | Except.ok lrs => lrs
      | Except.error lrs => (lrs.1, handleError lrs.1 lrs.2)

/-- One iteration's environment: the dequeue outcome and the behavior of
the external collaborators during that iteration. -/
structure WorkerEnv where
  deq : Option RawPayload
  scrape : String → Except Unit String
  proc : String → ArticleResult
  now : ℕ

/-- The worker loop run over a finite schedule of iteration
environments. -/
def workerRun (l : WorkerLocals) (rs : RedisState) :
    List WorkerEnv → WorkerLocals × RedisState
  | [] => (l, rs)
  | env :: rest =>
      let lrs := workerStep l rs env.deq env.scrape env.proc env.now
      workerRun lrs.1 lrs.2 rest

/-- **C4.** When the scrape of a dequeued `{url, taskId}` fails, the
iteration sets that task's status to `failed`, writes no cache entry,
publishes no result notification, and the loop absorbs the exception and
continues with the remaining schedule. -/
theorem worker_scrape_failure (l : WorkerLocals) (rs : RedisState) (url uuid : String)
    (scrape : String → Except Unit String) (proc : String → ArticleResult) (now : ℕ)
    (envs : List WorkerEnv)
    (hscrape : scrape url = Except.error ()) :
    (workerStep l rs (some (RawPayload.wellFormed url uuid)) scrape proc now).2.statuses uuid =
      some "failed" ∧
    (workerStep l rs (some (RawPayload.wellFormed url uuid)) scrape proc now).2.cache = rs.cache ∧
    (workerStep l rs (some (RawPayload.wellFormed url uuid)) scrape proc now).2.published =
      rs.published ∧
    workerRun l rs (WorkerEnv.mk (some (RawPayload.wellFormed url uuid)) scrape proc now :: envs) =
      workerRun (workerStep l rs (some (RawPayload.wellFormed url uuid)) scrape proc now).1
        (workerStep l rs (some (RawPayload.wellFormed url uuid)) scrape proc now).2 envs := by
  rcases hut : rs.urlTasks url with _ | ut <;>
  · refine ⟨?_, ?_, ?_, ?_⟩ <;>
      simp [workerStep, workerTry, handleError, RedisState.setStatus, RedisState.setUrlTask,
        RedisState.setCache, RedisState.publish, hscrape, hut, workerRun]

/-- Witness for C4: a failing scrape on an empty store marks the task
failed, leaves cache and notifications empty, and the loop goes on. -/
theorem worker_scrape_failure_witness :
    (workerStep (WorkerLocals.mk none none)
        (RedisState.mk (fun _ => none) (fun _ => none) (fun _ => none) [])
        (some (RawPayload.wellFormed "http://x" "t1"))
        (fun _ => Except.error ()) (fun _ => ArticleResult.mk "s" "n") 0).2.statuses "t1" =
      some "failed" ∧
    (workerStep (WorkerLocals.mk none none)
        (RedisState.mk (fun _ => none) (fun _ => none) (fun _ => none) [])
        (some (RawPayload.wellFormed "http://x" "t1"))
        (fun _ => Except.error ()) (fun _ => ArticleResult.mk "s" "n") 0).2.cache =
      (RedisState.mk (fun _ => none) (fun _ => none) (fun _ => none) ([] : List PubMsg)).cache ∧
    (workerStep (WorkerLocals.mk none none)
        (RedisState.mk (fun _ => none) (fun _ => none) (fun _ => none) [])
        (some (RawPayload.wellFormed "http://x" "t1"))
        (fun _ => Except.error ()) (fun _ => ArticleResult.mk "s" "n") 0).2.published =
      (RedisState.mk (fun _ => none) (fun _ => none) (fun _ => none) ([] : List PubMsg)).published ∧
    workerRun (WorkerLocals.mk none none)
        (RedisState.mk (fun _ => none) (fun _ => none) (fun _ => none) [])
        (WorkerEnv.mk (some (RawPayload.wellFormed "http://x" "t1"))
          (fun _ => Except.error ()) (fun _ => ArticleResult.mk "s" "n") 0 :: []) =
      workerRun (workerStep (WorkerLocals.mk none none)
          (RedisState.mk (fun _ => none) (fun _ => none) (fun _ => none) [])
          (some (RawPayload.wellFormed "http://x" "t1"))
          (fun _ => Except.error ()) (fun _ => ArticleResult.mk "s" "n") 0).1
        (workerStep (WorkerLocals.mk none none)
          (RedisState.mk (fun _ => none) (fun _ => none) (fun _ => none) [])
          (some (RawPayload.wellFormed "http://x" "t1"))
          (fun _ => Except.error ()) (fun _ => ArticleResult.mk "s" "n") 0).2 [] :=
  worker_scrape_failure (WorkerLocals.mk none none)
    (RedisState.mk (fun _ => none) (fun _ => none) (fun _ => none) [])
    "http://x" "t1" (fun _ => Except.error ()) (fun _ => ArticleResult.mk "s" "n") 0 [] rfl

/-- **C10.** The handler's failed-status write uses whatever `task_uuid`
is currently bound: a malformed payload that raises before decoding, with
a task id left over from a previous iteration, writes `failed` under that
previous id (and touches no other status key); on the very first
iteration, with no binding, nothing is written at all. -/
theorem worker_malformed_payload (l : WorkerLocals) (rs : RedisState)
    (scrape : String → Except Unit String) (proc : String → ArticleResult) (now : ℕ) :
    (∀ prevId, l.task_uuid = some prevId →
      (workerStep l rs (some RawPayload.malformed) scrape proc now).2.statuses prevId =
        some "failed" ∧
      ∀ q, q ≠ prevId →
        (workerStep l rs (some RawPayload.malformed) scrape proc now).2.statuses q =
          rs.statuses q) ∧
    (l.task_uuid = none →
      workerStep l rs (some RawPayload.malformed) scrape proc now = (l, rs)) := by
  constructor
  · intro prevId hprev
    rcases hu : l.url with _ | u
    · constructor
      · simp [workerStep, workerTry, handleError, hprev, hu, RedisState.setStatus]
      · intro q hq
        simp [workerStep, workerTry, handleError, hprev, hu, RedisState.setStatus, hq]
    · rcases hut : rs.urlTasks u with _ | ut
      · constructor
        · simp [workerStep, workerTry, handleError, hprev, hu, hut,
            RedisState.setStatus, RedisState.setUrlTask]
        · intro q hq
          simp [workerStep, workerTry, handleError, hprev, hu, hut,
            RedisState.setStatus, RedisState.setUrlTask, hq]
      · constructor
        · simp [workerStep, workerTry, handleError, hprev, hu, hut,
            RedisState.setStatus, RedisState.setUrlTask]
        · intro q hq
          simp [workerStep, workerTry, handleError, hprev, hu, hut,
            RedisState.setStatus, RedisState.setUrlTask, hq]
  · intro hnone
    simp [workerStep, workerTry, handleError, hnone]

/-- Witness for C10: a malformed payload after an iteration that bound
`task_uuid = "t0"` writes `failed` under `"t0"` and leaves other ids
untouched; on a fresh first iteration nothing changes. -/
theorem worker_malformed_payload_witness :
    ((workerStep (WorkerLocals.mk (some "u0") (some "t0"))
        (RedisState.mk (fun _ => none) (fun _ => none) (fun _ => none) [])
        (some RawPayload.malformed) (fun _ => Except.ok "page")
        (fun _ => ArticleResult.mk "s" "n") 0).2.statuses "t0" = some "failed" ∧
      (workerStep (WorkerLocals.mk (some "u0") (some "t0"))
        (RedisState.mk (fun _ => none) (fun _ => none) (fun _ => none) [])
        (some RawPayload.malformed) (fun _ => Except.ok "page")
        (fun _ => ArticleResult.mk "s" "n") 0).2.statuses "t1" =
        (RedisState.mk (fun _ => none) (fun _ => none) (fun _ => none)
          ([] : List PubMsg)).statuses "t1") ∧
    workerStep (WorkerLocals.mk none none)
        (RedisState.mk (fun _ => none) (fun _ => none) (fun _ => none) [])
        (some RawPayload.malformed) (fun _ => Except.ok "page")
        (fun _ => ArticleResult.mk "s" "n") 0 =
      (WorkerLocals.mk none none,
        RedisState.mk (fun _ => none) (fun _ => none) (fun _ => none) []) := by
  refine ⟨⟨?_, ?_⟩, ?_⟩
  · exact ((worker_malformed_payload (WorkerLocals.mk (some "u0") (some "t0"))
      (RedisState.mk (fun _ => none) (fun _ => none) (fun _ => none) [])
      (fun _ => Except.ok "page") (fun _ => ArticleResult.mk "s" "n") 0).1 "t0" rfl).1
  · exact ((worker_malformed_payload (WorkerLocals.mk (some "u0") (some "t0"))
      (RedisState.mk (fun _ => none) (fun _ => none) (fun _ => none) [])
      (fun _ => Except.ok "page") (fun _ => ArticleResult.mk "s" "n") 0).1 "t0" rfl).2
      "t1" (by decide)
  · exact (worker_malformed_payload (WorkerLocals.mk none none)
      (RedisState.mk (fun _ => none) (fun _ => none) (fun _ => none) [])
      (fun _ => Except.ok "page") (fun _ => ArticleResult.mk "s" "n") 0).2 rfl

end AugmentedScraper
